import Mathlib

/-!
# Verification of the job-application tracker

A shallow embedding of `app.py` (a Flask + SQLAlchemy + openpyxl job-application
tracker) and proofs of the specification claims about it.

The record store (the `job_applications` SQLite table) is modelled as a
`List JobApplication`; each route handler becomes a pure function from the
store (plus the request's form/query data) to an `Outcome` together with the
store left behind by the request (uncommitted ORM mutations are rolled back at
request teardown, so a handler that never calls `commit` leaves the store
unchanged).
-/

namespace JobTracker

/-- A calendar date, as handled by Python's `datetime.date`. -/
structure HDate where
  year : Nat
  month : Nat
  day : Nat
deriving DecidableEq, Repr

/-- Numeric sort key of a date; for the in-range dates produced by
`date.fromisoformat` (year ≤ 9999) it is strictly monotone in
(year, month, day), matching SQL ordering of the date column. -/
def HDate.key (d : HDate) : Nat := d.year * 10000 + d.month * 100 + d.day

/-- One row of the `job_applications` table (`class JobApplication(db.Model)`).
`date_applied` and `notes` are `Option`-valued because the export code guards
against `None` in both (`if job.date_applied else ''`, `job.notes or ''`). -/
structure JobApplication where
  id : Nat
  company : String
  role : String
  date_applied : Option HDate
  status : String
  notes : Option String
deriving DecidableEq, Repr

/-- `STATUS_OPTIONS` from `app.py`. -/
def STATUS_OPTIONS : List String :=
  ["Pending", "Interview Scheduled", "Selected", "Rejected"]

/-- The dict returned by `get_summary()`. -/
structure Summary where
  total : Nat
  pending : Nat
  rejected : Nat
  selected : Nat
  interview : Nat
deriving DecidableEq, Repr

/-- `get_summary()`: each `JobApplication.query.filter_by(status=...).count()`
becomes the length of the corresponding filtered list; `query.count()` is the
length of the whole store. -/
def get_summary (store : List JobApplication) : Summary :=
  { total := store.length
    pending := (store.filter (fun r => r.status == "Pending")).length
    rejected := (store.filter (fun r => r.status == "Rejected")).length
    selected := (store.filter (fun r => r.status == "Selected")).length
    interview := (store.filter (fun r => r.status == "Interview Scheduled")).length }

/-- Characters removed by Python's `str.strip()` (the ASCII whitespace ones;
form values never contain the more exotic Unicode spaces). -/
def isPySpace (c : Char) : Bool :=
  c == ' ' || c == '\t' || c == '\n' || c == '\r' || c == '\x0b' || c == '\x0c'

/-- Python's `str.strip()`: drop leading and trailing whitespace. -/
def strip (s : String) : String :=
  String.mk (((s.toList.dropWhile isPySpace).reverse.dropWhile isPySpace).reverse)

/-- SQL `LIKE` pattern matching over characters: `%` matches any (possibly
empty) sequence, `_` matches exactly one character, anything else matches
itself.  No `ESCAPE` clause is in effect in `app.py`, so `%` and `_` coming
from user input keep their wildcard meaning. -/
def likeMatch : List Char → List Char → Bool
  | [], s => s.isEmpty
  | p₀ :: p, s =>
    if p₀ = '%' then (s.tails).any (fun t => likeMatch p t)
    else
      match s with
      | [] => false
      | c :: s' => (p₀ == '_' || p₀ == c) && likeMatch p s'

/-- `column.ilike(pattern)`: SQLAlchemy compiles this for SQLite to
`lower(column) LIKE lower(pattern)`; SQLite's `lower()` is ASCII-only, which
is exactly Lean's `Char.toLower`. -/
def ilike (value pattern : String) : Bool :=
  likeMatch (pattern.toList.map Char.toLower) (value.toList.map Char.toLower)

/-- The comparison realising `ORDER BY date_applied DESC` (`a` may come before
`b` iff `a`'s date key is ≥ `b`'s; SQLite sorts NULL first under DESC... the
key of a missing date is 0, i.e. NULL sorts last, ties are unspecified by the
SQL anyway and no claim depends on NULL placement). -/
def dateDescRel (a b : JobApplication) : Prop :=
  (match b.date_applied with | none => 0 | some d => d.key)
    ≤ (match a.date_applied with | none => 0 | some d => d.key)

instance : DecidableRel dateDescRel := fun _ _ => Nat.decLe _ _

/-- Sort key of a record, used to state ordering claims. -/
def dateKey (r : JobApplication) : Nat :=
  match r.date_applied with | none => 0 | some d => d.key

/-- `query.order_by(JobApplication.date_applied.desc()).all()`: some sequence
ordered by date descending (the relative order of ties is unspecified in SQL;
any sort realising the order is a faithful model). -/
def orderByDateDesc (l : List JobApplication) : List JobApplication :=
  List.insertionSort dateDescRel l

/-- The `status` restriction applied by `index()`: filter only when the
parameter is truthy and a member of `STATUS_OPTIONS`. -/
def statusPass (status_arg : String) (r : JobApplication) : Bool :=
  if status_arg ≠ "" ∧ status_arg ∈ STATUS_OPTIONS then r.status == status_arg else true

/-- The search restriction applied by `index()`: filter only when the stripped
search text is non-empty, by `company.ilike('%' + text + '%')`. -/
def searchPass (search_arg : String) (r : JobApplication) : Bool :=
  if strip search_arg ≠ "" then ilike r.company ("%" ++ strip search_arg ++ "%") else true

/-- The `index()` route: optional status filter, optional search, then
`ORDER BY date_applied DESC`. -/
def index (store : List JobApplication) (status_arg search_arg : String) :
    List JobApplication :=
  let search_query := strip search_arg
  let q1 := if status_arg ≠ "" ∧ status_arg ∈ STATUS_OPTIONS then
      store.filter (fun r => r.status == status_arg)
    else store
  let q2 := if search_query ≠ "" then
      q1.filter (fun r => ilike r.company ("%" ++ search_query ++ "%"))
    else q1
  orderByDateDesc q2

/-- The POSTed form of `add()` / `edit()`; `request.form.get(key, default)`
yields the default when a field is absent. -/
structure FormInput where
  company : Option String
  role : Option String
  date_applied : Option String
  status : Option String
  notes : Option String
deriving DecidableEq, Repr

/-- Observable outcome of a request.  `missingField` carries the `job` value
handed to the re-rendered template (`none` when `render_template` is called
without a `job` argument, as in `add()`'s failure branch). -/
inductive Outcome where
  | missingField (redisplay : Option JobApplication)
  | badDate
  | successRedirect
  | notFound
  | formPage (job : Option JobApplication)
deriving DecidableEq, Repr

/-- Gregorian leap-year test (as in `datetime`). -/
def isLeap (y : Nat) : Bool := (y % 4 == 0 && y % 100 != 0) || y % 400 == 0

/-- Days in a month (as in `datetime`). -/
def daysInMonth (y m : Nat) : Nat :=
  if m == 2 then (if isLeap y then 29 else 28)
  else if m == 4 || m == 6 || m == 9 || m == 11 then 30
  else 31

/-- Value of an ASCII digit character. -/
def digit? (c : Char) : Option Nat :=
  if c.isDigit then some (c.toNat - 48) else none

/-- `date.fromisoformat` on the `YYYY-MM-DD` format: exactly ten characters,
hyphens at positions 4 and 7, digits elsewhere, and a valid Gregorian
calendar date (`datetime` years run 1–9999). -/
def isoparse (s : String) : Option HDate :=
  match s.toList with
  | [y1, y2, y3, y4, s1, m1, m2, s2, d1, d2] =>
    if s1 == '-' && s2 == '-' then
      match digit? y1, digit? y2, digit? y3, digit? y4,
            digit? m1, digit? m2, digit? d1, digit? d2 with
      | some a, some b, some c, some d, some e, some f, some g, some h =>
        let y := a * 1000 + b * 100 + c * 10 + d
        let m := e * 10 + f
        let dd := g * 10 + h
        if 1 ≤ y ∧ 1 ≤ m ∧ m ≤ 12 ∧ 1 ≤ dd ∧ dd ≤ daysInMonth y m then
          some ⟨y, m, dd⟩
        else none
      | _, _, _, _, _, _, _, _ => none
    else none
  | _ => none

/-- The POST branch of `add()`.  `next_id` stands for the id the store assigns
to the new row.  On validation failure the template is re-rendered with *no*
`job` argument (the entered values are not passed back); nothing is committed,
so the store is unchanged. -/
def add (store : List JobApplication) (next_id : Nat) (f : FormInput) :
    Outcome × List JobApplication :=
  let company := strip (f.company.getD "")
  let role := strip (f.role.getD "")
  let date_str := f.date_applied.getD ""
  let status := f.status.getD "Pending"
  let notes := strip (f.notes.getD "")
  if company = "" ∨ role = "" ∨ date_str = "" then
    (Outcome.missingField none, store)
  else
    match isoparse date_str with
    | none => (Outcome.badDate, store)
    | some d =>
      (Outcome.successRedirect,
        store ++ [{ id := next_id, company := company, role := role,
                    date_applied := some d, status := status, notes := some notes }])

/-- The GET branch of `edit()`: `query.get_or_404` aborts with 404 when the id
is unknown, otherwise the pre-filled form is rendered. -/
def editGet (store : List JobApplication) (job_id : Nat) :
    Outcome × List JobApplication :=
  match store.find? (fun r => r.id == job_id) with
  | none => (Outcome.notFound, store)
  | some job => (Outcome.formPage (some job), store)

/-- The POST branch of `edit()`.  On a missing required field the template is
re-rendered with the ORM object whose `company`/`role`/`status`/`notes` have
been overwritten by the submitted values but whose `date_applied` is still the
stored one (the date is parsed only later); nothing is committed, so the store
is unchanged (the dirty session is rolled back at request teardown). -/
def edit (store : List JobApplication) (job_id : Nat) (f : FormInput) :
    Outcome × List JobApplication :=
  match store.find? (fun r => r.id == job_id) with
  | none => (Outcome.notFound, store)
  | some job =>
    let company := strip (f.company.getD "")
    let role := strip (f.role.getD "")
    let date_str := f.date_applied.getD ""
    let status := f.status.getD "Pending"
    let notes := strip (f.notes.getD "")
    if company = "" ∨ role = "" ∨ date_str = "" then
      (Outcome.missingField (some { job with
        company := company
        role := role
        status := status
        notes := some notes }), store)
    else
      match isoparse date_str with
      | none => (Outcome.badDate, store)
      | some d =>
        (Outcome.successRedirect,
          store.map (fun r =>
            if r.id == job_id then
              { r with
                company := company
                role := role
                date_applied := some d
                status := status
                notes := some notes }
            else r))

/-- The `delete()` route: 404 when the id is unknown, otherwise the row with
that primary key is deleted and the deletion committed. -/
def delete (store : List JobApplication) (job_id : Nat) :
    Outcome × List JobApplication :=
  match store.find? (fun r => r.id == job_id) with
  | none => (Outcome.notFound, store)
  | some _ => (Outcome.successRedirect, store.filter (fun r => !(r.id == job_id)))

/-- `status_fill_map` from `export()`. -/
def status_fill_map (s : String) : Option String :=
  if s == "Pending" then some "FFF3CD"
  else if s == "Interview Scheduled" then some "CFE2FF"
  else if s == "Selected" then some "D1E7DD"
  else if s == "Rejected" then some "F8D7DA"
  else none

/-- Two-digit zero padding (`%m`, `%d`). -/
def pad2 (n : Nat) : String := if n < 10 then "0" ++ toString n else toString n

/-- Four-digit zero padding (`%Y` as documented by `strftime`). -/
def pad4 (n : Nat) : String :=
  if n < 10 then "000" ++ toString n
  else if n < 100 then "00" ++ toString n
  else if n < 1000 then "0" ++ toString n
  else toString n

/-- `job.date_applied.strftime('%Y-%m-%d') if job.date_applied else ''`. -/
def formatDate : Option HDate → String
  | none => ""
  | some d => pad4 d.year ++ "-" ++ pad2 d.month ++ "-" ++ pad2 d.day

/-- One data row of the exported worksheet, in column order; `fill` is the row
background colour. -/
structure Row where
  seq : Nat
  company : String
  role : String
  date_applied : String
  status : String
  notes : String
  fill : String
deriving DecidableEq, Repr

/-- The header row written by `export()`. -/
def headers : List String := ["#", "Company", "Role", "Date Applied", "Status", "Notes"]

/-- The data row `export()` writes for the worksheet's 0-based data index `i`
(`row_num = i + 2`, first cell `row_num - 1 = i + 1`). -/
def rowOf (i : Nat) (j : JobApplication) : Row :=
  { seq := i + 1
    company := j.company
    role := j.role
    date_applied := formatDate j.date_applied
    status := j.status
    notes := j.notes.getD ""
    fill := (status_fill_map j.status).getD "FFFFFF" }

/-- The observable content of the exported workbook. -/
structure Workbook where
  header : List String
  rows : List Row
deriving DecidableEq, Repr

/-- The `export()` route: all records (no filter), ordered by date descending,
one styled row per record.  The route only reads the store, so the store
component of the result is the input store.  (Named `exportFile` because
`export` is reserved in Lean.) -/
def exportFile (store : List JobApplication) : Workbook × List JobApplication :=
  ({ header := headers
     rows := (orderByDateDesc store).enum.map (fun p => rowOf p.1 p.2) },
   store)

/-- Modelled from the spec's words for comparison with the code ("restrict to
records whose `company` contains the search text, case-insensitively, as a
plain substring match"): case-insensitive plain-substring containment, with
every character of the needle taken literally. -/
def containsCI (hay needle : String) : Bool :=
  ((hay.toList.map Char.toLower).tails).any
    (fun t => (needle.toList.map Char.toLower).isPrefixOf t)

/-- `∀`-free-form wildcard freedom: no character of `l` is a `LIKE`
metacharacter. -/
def noWildcard (l : List Char) : Prop := ∀ c ∈ l, c ≠ '%' ∧ c ≠ '_'

instance (l : List Char) : Decidable (noWildcard l) :=
  inferInstanceAs (Decidable (∀ c ∈ l, c ≠ '%' ∧ c ≠ '_'))

/-- Record used in the C1 counterexample: its company is "abc". -/
def cRecC1 : JobApplication :=
  { id := 1, company := "abc", role := "R", date_applied := some ⟨2024, 1, 1⟩,
    status := "Pending", notes := some "" }

/-- Record used in the C1 witness (spec scenario F). -/
def wRecC1 : JobApplication :=
  { id := 1, company := "Acme Corp", role := "Engineer",
    date_applied := some ⟨2024, 1, 15⟩, status := "Pending", notes := some "" }

/-- Submission used in the C2 counterexample: empty company, everything else
filled in. -/
def cFormC2 : FormInput :=
  { company := some "", role := some "R", date_applied := some "2024-01-01",
    status := some "Pending", notes := some "N" }

/-- Submission used in the C2 witness: whitespace-only role. -/
def wFormC2 : FormInput :=
  { company := some "C", role := some "   ", date_applied := some "2024-01-01",
    status := some "Pending", notes := some "" }

/-- Record used in the C3 witness. -/
def wRecC3 : JobApplication :=
  { id := 1, company := "Acme", role := "Engineer",
    date_applied := some ⟨2024, 1, 15⟩, status := "Pending", notes := some "" }

/-- Record used in the C4 witness: absent date and absent notes. -/
def wRecC4 : JobApplication :=
  { id := 5, company := "Acme", role := "Engineer",
    date_applied := none, status := "Pending", notes := none }

/-- Record dated 2024-01-01 (spec scenario B). -/
def cRecJanC5 : JobApplication :=
  { id := 1, company := "A", role := "R", date_applied := some ⟨2024, 1, 1⟩,
    status := "Pending", notes := some "" }

/-- Record dated 2024-03-01 (spec scenario B). -/
def cRecMarC5 : JobApplication :=
  { id := 2, company := "B", role := "R", date_applied := some ⟨2024, 3, 1⟩,
    status := "Pending", notes := some "" }

/-- Submission used in the C6 counterexample: whitespace-only date string. -/
def cFormC6 : FormInput :=
  { company := some "C", role := some "R", date_applied := some " ",
    status := some "Pending", notes := some "" }

/-- Submission used in the C6 witness: non-empty but unparsable date. -/
def wFormC6 : FormInput :=
  { company := some "C", role := some "R", date_applied := some "2024-13-01",
    status := some "Pending", notes := some "" }

/-- Record with an out-of-enumeration status, used in the C7 witness. -/
def wRecC7 : JobApplication :=
  { id := 3, company := "Acme", role := "Engineer",
    date_applied := some ⟨2024, 2, 2⟩, status := "Ghosted", notes := some "" }

/-- Record used in the C8 witness (spec scenario E uses unknown id 9999). -/
def wRecC8 : JobApplication :=
  { id := 1, company := "Acme", role := "Engineer",
    date_applied := some ⟨2024, 1, 15⟩, status := "Pending", notes := some "" }

/-- Form input used in the C8 witness. -/
def wFormC8 : FormInput :=
  { company := some "C", role := some "R", date_applied := some "2024-01-01",
    status := some "Pending", notes := some "" }

/-- First record of the C10 witness store (the one deleted, id 1). -/
def wRecC10a : JobApplication :=
  { id := 1, company := "Acme", role := "Engineer",
    date_applied := some ⟨2024, 1, 1⟩, status := "Pending", notes := some "" }

/-- Second record of the C10 witness store (the survivor, id 2). -/
def wRecC10b : JobApplication :=
  { id := 2, company := "Globex", role := "Manager",
    date_applied := some ⟨2024, 2, 1⟩, status := "Rejected", notes := some "keep" }

instance : IsTotal JobApplication dateDescRel :=
  ⟨fun _ _ => Nat.le_total _ _⟩

instance : IsTrans JobApplication dateDescRel :=
  ⟨fun _ _ _ h1 h2 => Nat.le_trans h2 h1⟩

end JobTracker

namespace JobTracker

/-! ## Helper lemmas about `LIKE` matching and lowercasing -/

theorem likeMatch_nil (s : List Char) : likeMatch [] s = true ↔ s = [] := by
  simp [likeMatch, List.isEmpty_iff]

theorem likeMatch_percent (p s : List Char) :
    likeMatch ('%' :: p) s = true ↔ ∃ t, t <:+ s ∧ likeMatch p t = true := by
  simp [likeMatch, List.any_eq_true, List.mem_tails]

theorem percent_matches_all (s : List Char) : likeMatch ['%'] s = true :=
  (likeMatch_percent [] s).mpr ⟨[], List.nil_suffix, rfl⟩

theorem likeMatch_literal (n : List Char) (hn : ∀ c ∈ n, c ≠ '%' ∧ c ≠ '_') :
    ∀ s : List Char, (likeMatch (n ++ ['%']) s = true ↔ n <+: s) := by
  induction n with
  | nil =>
    intro s
    rw [List.nil_append]
    constructor
    · intro _
      exact List.nil_prefix
    · intro _
      exact percent_matches_all s
  | cons a n ih =>
    intro s
    have ha := hn a (List.mem_cons_self a n)
    cases s with
    | nil =>
      simp only [List.cons_append, likeMatch, if_neg ha.1]
      simp
    | cons c s =>
      simp only [List.cons_append, likeMatch, if_neg ha.1]
      have hu : (a == '_') = false := by simpa using ha.2
      rw [hu]
      have ih' := ih (fun c hc => hn c (List.mem_cons_of_mem a hc)) s
      rw [Bool.and_eq_true, Bool.false_or, beq_iff_eq, List.append_eq, ih']
      exact List.cons_prefix_cons.symm

theorem char_ofNat_toNat_valid {m : Nat} (h : m < 55296) :
    (Char.ofNat m).toNat = m := by
  rw [Char.ofNat, dif_pos (Or.inl h)]
  rfl

theorem toLower_cases (c : Char) :
    c.toLower = c ∨ (65 ≤ c.toNat ∧ c.toNat ≤ 90 ∧ c.toLower.toNat = c.toNat + 32) := by
  by_cases h : c.toNat ≥ 65 ∧ c.toNat ≤ 90
  · right
    refine ⟨h.1, h.2, ?_⟩
    have hl : c.toLower = Char.ofNat (c.toNat + 32) := by
      simp only [Char.toLower]
      rw [if_pos h]
    rw [hl, char_ofNat_toNat_valid (by omega)]
  · left
    simp only [Char.toLower]
    rw [if_neg h]

theorem toLower_wildcard {c w : Char} (hw : w = '%' ∨ w = '_')
    (h : c.toLower = w) : c = w := by
  rcases toLower_cases c with hc | ⟨h1, h2, h3⟩
  · rw [hc] at h
    exact h
  · exfalso
    rw [h] at h3
    rcases hw with rfl | rfl
    · have : ('%').toNat = 37 := rfl
      omega
    · have : ('_').toNat = 95 := rfl
      omega

theorem noWildcard_map_toLower {l : List Char} (h : noWildcard l) :
    noWildcard (l.map Char.toLower) := by
  intro c hc
  rcases List.mem_map.mp hc with ⟨d, hd, rfl⟩
  constructor
  · intro heq
    exact (h d hd).1 (toLower_wildcard (Or.inl rfl) heq)
  · intro heq
    exact (h d hd).2 (toLower_wildcard (Or.inr rfl) heq)

theorem containsCI_iff (hay needle : String) :
    containsCI hay needle = true
      ↔ (needle.toList.map Char.toLower) <:+: (hay.toList.map Char.toLower) := by
  simp only [containsCI, List.any_eq_true, List.mem_tails,
    List.isPrefixOf_iff_prefix, List.infix_iff_prefix_suffix]
  constructor
  · rintro ⟨t, ht, hp⟩
    exact ⟨t, hp, ht⟩
  · rintro ⟨t, hp, ht⟩
    exact ⟨t, ht, hp⟩

theorem searchPattern_toList (q : String) :
    ("%" ++ q ++ "%").toList.map Char.toLower
      = '%' :: (q.toList.map Char.toLower ++ ['%']) := by
  show (("%" ++ q ++ "%").data.map Char.toLower) = _
  rw [String.data_append, String.data_append]
  simp [String.toList]

theorem ilike_substring (company q : String) (hn : noWildcard q.toList) :
    ilike company ("%" ++ q ++ "%") = true ↔ containsCI company q = true := by
  rw [containsCI_iff]
  unfold ilike
  rw [show ("%" ++ q ++ "%").toList.map Char.toLower
        = '%' :: (q.toList.map Char.toLower ++ ['%']) from searchPattern_toList q]
  rw [likeMatch_percent]
  have hlit := likeMatch_literal (q.toList.map Char.toLower)
    (noWildcard_map_toLower hn)
  constructor
  · rintro ⟨t, ht, hm⟩
    exact List.infix_iff_prefix_suffix.mpr ⟨t, (hlit t).mp hm, ht⟩
  · intro hinf
    rcases List.infix_iff_prefix_suffix.mp hinf with ⟨t, hp, ht⟩
    exact ⟨t, ht, (hlit t).mpr hp⟩

theorem mem_orderByDateDesc (l : List JobApplication) (r : JobApplication) :
    r ∈ orderByDateDesc l ↔ r ∈ l :=
  (List.perm_insertionSort dateDescRel l).mem_iff

theorem mem_index (store : List JobApplication) (sf q : String) (r : JobApplication) :
    r ∈ index store sf q ↔ r ∈ store ∧ statusPass sf r = true ∧ searchPass q r = true := by
  unfold index statusPass searchPass
  rw [mem_orderByDateDesc]
  by_cases h1 : sf ≠ "" ∧ sf ∈ STATUS_OPTIONS <;>
    by_cases h2 : strip q ≠ "" <;>
      (simp [h1, h2, List.mem_filter, and_assoc]; try tauto)

/-! ## C1 -/

/-- C1 (amended): for every store state, status filter and search text, the
list operation returns exactly the records that satisfy the status restriction
AND the search restriction conjunctively, where the search restriction is SQL
`LIKE` matching of the pattern `'%' + trimmed text + '%'` on the lowercased
company (wildcards `%`/`_` in the search text keep their `LIKE` meaning); for
search texts free of `%` and `_`, the search restriction coincides with
case-insensitive plain-substring containment. -/
theorem C1_filter_search_exact (store : List JobApplication) (sf q : String) :
    (∀ r, r ∈ index store sf q ↔ r ∈ store ∧ statusPass sf r = true ∧ searchPass q r = true)
    ∧ (∀ r : JobApplication, noWildcard (strip q).toList → strip q ≠ "" →
        (searchPass q r = true ↔ containsCI r.company (strip q) = true)) := by
  constructor
  · intro r
    exact mem_index store sf q r
  · intro r hn hq
    unfold searchPass
    rw [if_pos hq]
    exact ilike_substring r.company (strip q) hn

/-- C1 counterexample: with the store holding one record whose company is
"abc", searching for "a_c" returns that record even though "abc" does not
contain "a_c" as a plain substring — the `_` acts as a `LIKE` wildcard, so the
original claim's "plain substring for every possible search string, including
ones containing characters like '%' or '_'" is false. -/
theorem C1_counterexample :
    cRecC1 ∈ index [cRecC1] "" "a_c" ∧ containsCI cRecC1.company "a_c" = false := by
  decide

/-- C1 witness: spec scenario F — searching "acm" finds company "Acme Corp",
and for this wildcard-free search text the `LIKE` restriction agrees with
case-insensitive substring containment. -/
theorem C1_witness :
    wRecC1 ∈ index [wRecC1] "" "acm" ∧ containsCI wRecC1.company (strip "acm") = true := by
  have h := C1_filter_search_exact [wRecC1] "" "acm"
  exact ⟨(h.1 wRecC1).mpr ⟨by decide, by decide, by decide⟩,
    (h.2 wRecC1 (by decide) (by decide)).mp (by decide)⟩

/-! ## C2 -/

/-- C2 (amended): when company or role is empty after trimming, or the raw
date string is empty (untrimmed — a whitespace-only date string instead
reaches the date parser, see C6), both create and update are rejected with the
single combined missing-field error and the store is unchanged; the add form
is redisplayed with no previously entered values (`render_template` is called
without a `job`), while the edit form is redisplayed with the submitted
company, role, status and notes but the record's previously stored date. -/
theorem C2_missing_field (store : List JobApplication) (next_id : Nat) (f : FormInput)
    (h : strip (f.company.getD "") = "" ∨ strip (f.role.getD "") = ""
        ∨ f.date_applied.getD "" = "") :
    add store next_id f = (Outcome.missingField none, store)
    ∧ ∀ job_id job, store.find? (fun r => r.id == job_id) = some job →
        edit store job_id f = (Outcome.missingField (some { job with
          company := strip (f.company.getD "")
          role := strip (f.role.getD "")
          status := f.status.getD "Pending"
          notes := some (strip (f.notes.getD "")) }), store) := by
  constructor
  · unfold add
    rw [if_pos h]
  · intro job_id job hfind
    unfold edit
    rw [hfind]
    simp only
    rw [if_pos h]

/-- C2 counterexample: submitting the add form with an empty company but with
role "R", a date, a status and notes "N" yields the missing-field outcome with
`none` as the redisplay data — the previously entered role/date/status/notes
are NOT passed back to the redisplayed form, contradicting the claim's
preservation requirement (the `render_template` call in `add()`'s failure
branch passes no `job` and no field values). -/
theorem C2_counterexample :
    add [] 1 cFormC2 = (Outcome.missingField none, [])
    ∧ cFormC2.role = some "R" ∧ cFormC2.notes = some "N" := by
  decide

/-- C2 witness: a whitespace-only role is rejected with the combined
missing-field error, nothing is persisted, and the add form redisplay carries
no values. -/
theorem C2_witness : add [] 7 wFormC2 = (Outcome.missingField none, []) :=
  (C2_missing_field [] 7 wFormC2 (by decide)).1

/-! ## C3 -/

theorem status_indicator (s : String) :
    ((if s == "Pending" then 1 else 0) : Nat)
      + ((if s == "Interview Scheduled" then 1 else 0) : Nat)
      + ((if s == "Selected" then 1 else 0) : Nat)
      + ((if s == "Rejected" then 1 else 0) : Nat)
    = if s ∈ STATUS_OPTIONS then (1 : Nat) else 0 := by
  by_cases h1 : s = "Pending"
  · subst h1; decide
  · by_cases h2 : s = "Interview Scheduled"
    · subst h2; decide
    · by_cases h3 : s = "Selected"
      · subst h3; decide
      · by_cases h4 : s = "Rejected"
        · subst h4; decide
        · simp [STATUS_OPTIONS, h1, h2, h3, h4]

theorem countP_status_sum (store : List JobApplication) :
    store.countP (fun r => r.status == "Pending")
      + store.countP (fun r => r.status == "Interview Scheduled")
      + store.countP (fun r => r.status == "Selected")
      + store.countP (fun r => r.status == "Rejected")
    = store.countP (fun r => decide (r.status ∈ STATUS_OPTIONS)) := by
  induction store with
  | nil => rfl
  | cons a t ih =>
    simp only [List.countP_cons]
    have ha := status_indicator a.status
    have hmem : (if decide (a.status ∈ STATUS_OPTIONS) = true then (1 : Nat) else 0)
        = if a.status ∈ STATUS_OPTIONS then (1 : Nat) else 0 := by
      by_cases h : a.status ∈ STATUS_OPTIONS <;> simp [h]
    omega

/-- C3: `summarize()` computes five counts over the entire unfiltered record
set — `total` is the store's size and each named count is the number of
records whose status equals the corresponding enumeration member — hence
`pending + interview + selected + rejected ≤ total`, with equality iff every
record's status belongs to the four-member enumeration. -/
theorem C3_summary (store : List JobApplication) :
    (get_summary store).total = store.length
    ∧ (get_summary store).pending = store.countP (fun r => r.status == "Pending")
    ∧ (get_summary store).interview = store.countP (fun r => r.status == "Interview Scheduled")
    ∧ (get_summary store).selected = store.countP (fun r => r.status == "Selected")
    ∧ (get_summary store).rejected = store.countP (fun r => r.status == "Rejected")
    ∧ (get_summary store).pending + (get_summary store).interview
        + (get_summary store).selected + (get_summary store).rejected
        ≤ (get_summary store).total
    ∧ ((get_summary store).pending + (get_summary store).interview
        + (get_summary store).selected + (get_summary store).rejected
        = (get_summary store).total
        ↔ ∀ r ∈ store, r.status ∈ STATUS_OPTIONS) := by
  have hp : (get_summary store).pending = store.countP (fun r => r.status == "Pending") :=
    (List.countP_eq_length_filter _ _).symm
  have hi : (get_summary store).interview
      = store.countP (fun r => r.status == "Interview Scheduled") :=
    (List.countP_eq_length_filter _ _).symm
  have hs : (get_summary store).selected = store.countP (fun r => r.status == "Selected") :=
    (List.countP_eq_length_filter _ _).symm
  have hr : (get_summary store).rejected = store.countP (fun r => r.status == "Rejected") :=
    (List.countP_eq_length_filter _ _).symm
  have hsum := countP_status_sum store
  have hle : store.countP (fun r => decide (r.status ∈ STATUS_OPTIONS)) ≤ store.length :=
    List.countP_le_length _
  refine ⟨rfl, hp, hi, hs, hr, ?_, ?_⟩
  · rw [hp, hi, hs, hr, hsum]
    exact hle
  · rw [hp, hi, hs, hr, hsum]
    show store.countP (fun r => decide (r.status ∈ STATUS_OPTIONS)) = store.length
      ↔ ∀ r ∈ store, r.status ∈ STATUS_OPTIONS
    rw [List.countP_eq_length]
    constructor
    · intro h r hrmem
      exact of_decide_eq_true (h r hrmem)
    · intro h r hrmem
      exact decide_eq_true (h r hrmem)

/-- C3 witness: on a one-record store with status "Pending" the four named
counts sum to the total, since every status is in the enumeration. -/
theorem C3_witness :
    (get_summary [wRecC3]).pending + (get_summary [wRecC3]).interview
      + (get_summary [wRecC3]).selected + (get_summary [wRecC3]).rejected
      = (get_summary [wRecC3]).total :=
  ((C3_summary [wRecC3]).2.2.2.2.2.2).mpr (by decide)

/-! ## C4 -/

theorem orderByDateDesc_length (l : List JobApplication) :
    (orderByDateDesc l).length = l.length :=
  (List.perm_insertionSort dateDescRel l).length_eq

theorem exportFile_rows_length (store : List JobApplication) :
    ((exportFile store).1).rows.length = store.length := by
  simp [exportFile, orderByDateDesc_length]

theorem exportFile_rows_getElem (store : List JobApplication) (i : Nat)
    (j : JobApplication) (h : (orderByDateDesc store)[i]? = some j) :
    ((exportFile store).1).rows[i]? = some (rowOf i j) := by
  simp [exportFile, List.enum, h]

/-- C4: the export produces one data row per record of the store (the full
record set, not any filtered view), the `i`-th row holding in column order the
1-based sequence number `i + 1` (independent of the record's id), company,
role, the date formatted `YYYY-MM-DD` (empty string when the date is absent),
status, and notes (empty string when null); with zero records the workbook is
the header row alone. -/
theorem C4_export_rows (store : List JobApplication) :
    ((exportFile store).1).header = ["#", "Company", "Role", "Date Applied", "Status", "Notes"]
    ∧ ((exportFile store).1).rows.length = store.length
    ∧ (∀ i j, (orderByDateDesc store)[i]? = some j →
        ((exportFile store).1).rows[i]? = some
          ({ seq := i + 1, company := j.company, role := j.role,
             date_applied := formatDate j.date_applied, status := j.status,
             notes := j.notes.getD "",
             fill := (status_fill_map j.status).getD "FFFFFF" } : Row))
    ∧ (∀ j : JobApplication, j.date_applied = none → ∀ i, (rowOf i j).date_applied = "")
    ∧ (∀ j : JobApplication, j.notes = none → ∀ i, (rowOf i j).notes = "")
    ∧ exportFile [] = ({ header := headers, rows := [] }, []) := by
  refine ⟨rfl, exportFile_rows_length store, ?_, ?_, ?_, rfl⟩
  · intro i j h
    exact exportFile_rows_getElem store i j h
  · intro j h i
    simp [rowOf, formatDate, h]
  · intro j h i
    simp [rowOf, h]

/-- C4 witness: a record with no date and no notes exports as a row with
sequence number 1, empty date and empty notes cells. -/
theorem C4_witness :
    ((exportFile [wRecC4]).1).rows[0]? = some (rowOf 0 wRecC4)
    ∧ (rowOf 0 wRecC4).date_applied = "" ∧ (rowOf 0 wRecC4).notes = "" := by
  have h := C4_export_rows [wRecC4]
  exact ⟨h.2.2.1 0 wRecC4 (by decide), h.2.2.2.1 wRecC4 (by decide) 0,
    h.2.2.2.2.1 wRecC4 (by decide) 0⟩

/-! ## C5 -/

theorem sorted_orderByDateDesc (l : List JobApplication) :
    (orderByDateDesc l).Pairwise (fun a b => dateKey b ≤ dateKey a) := by
  have h := List.sorted_insertionSort dateDescRel l
  exact h.imp (fun hab => hab)

/-- C5: for every store state and filter/search combination, the list
operation's result is ordered by `date_applied` descending, the export rows
are generated from the full record set ordered by the same rule, and in
particular with records dated 2024-01-01 and 2024-03-01 the unfiltered list
returns the 2024-03-01 record first (spec scenario B). -/
theorem C5_ordering (store : List JobApplication) (sf q : String) :
    (index store sf q).Pairwise (fun a b => dateKey b ≤ dateKey a)
    ∧ ((exportFile store).1).rows
        = (orderByDateDesc store).enum.map (fun p => rowOf p.1 p.2)
    ∧ (orderByDateDesc store).Pairwise (fun a b => dateKey b ≤ dateKey a)
    ∧ index [cRecJanC5, cRecMarC5] "" "" = [cRecMarC5, cRecJanC5] := by
  refine ⟨?_, rfl, sorted_orderByDateDesc store, by decide⟩
  unfold index
  exact sorted_orderByDateDesc _

/-! ## C6 -/

/-- C6 (amended): the required-field check trims company and role but tests
the raw date string untrimmed, so a whitespace-only date string passes the
required check and instead reaches the parser; any raw date string that is
non-empty but fails to parse as an ISO `YYYY-MM-DD` calendar date is rejected
with the bad-date error, which is distinct from the missing-field error. -/
theorem C6_bad_date (store : List JobApplication) (next_id : Nat) (f : FormInput)
    (hc : strip (f.company.getD "") ≠ "") (hr : strip (f.role.getD "") ≠ "")
    (hd : f.date_applied.getD "" ≠ "") (hp : isoparse (f.date_applied.getD "") = none) :
    add store next_id f = (Outcome.badDate, store)
    ∧ (∀ job_id job, store.find? (fun r => r.id == job_id) = some job →
        edit store job_id f = (Outcome.badDate, store))
    ∧ (∀ o : Option JobApplication, Outcome.badDate ≠ Outcome.missingField o) := by
  have hcond : ¬(strip (f.company.getD "") = "" ∨ strip (f.role.getD "") = ""
      ∨ f.date_applied.getD "" = "") := by
    push_neg
    exact ⟨hc, hr, hd⟩
  refine ⟨?_, ?_, ?_⟩
  · unfold add
    rw [if_neg hcond, hp]
  · intro job_id job hfind
    unfold edit
    rw [hfind]
    simp only
    rw [if_neg hcond, hp]
  · intro o hcontra
    exact Outcome.noConfusion hcontra

/-- C6 counterexample: a whitespace-only raw date string (empty after
trimming, hence "missing" by the claim's reading) with company and role
present is NOT rejected as a missing required field — `date_str` is read
untrimmed, so `" "` is truthy, passes the required check, and fails in the
date parser with the bad-date error instead. -/
theorem C6_counterexample :
    add [] 1 cFormC6 = (Outcome.badDate, []) ∧ strip " " = ""
    ∧ Outcome.badDate ≠ Outcome.missingField none := by
  decide

/-- C6 witness: month 13 does not parse, so the submission is rejected with
the bad-date error and nothing is stored. -/
theorem C6_witness : add [] 1 wFormC6 = (Outcome.badDate, []) :=
  (C6_bad_date [] 1 wFormC6 (by decide) (by decide) (by decide) (by decide)).1

/-! ## C7 -/

/-- C7: a record whose status lies outside the four-member enumeration does
not break the export — its row gets the neutral fill `FFFFFF` instead of a
status colour and is still emitted (row count is full) — and the summary
counts it only in `total`, never in the four named buckets. -/
theorem C7_unknown_status (store : List JobApplication) (r : JobApplication)
    (h : r.status ∉ STATUS_OPTIONS) :
    (∀ i, (rowOf i r).fill = "FFFFFF")
    ∧ ((exportFile (r :: store)).1).rows.length = store.length + 1
    ∧ (get_summary (r :: store)).total = (get_summary store).total + 1
    ∧ (get_summary (r :: store)).pending = (get_summary store).pending
    ∧ (get_summary (r :: store)).interview = (get_summary store).interview
    ∧ (get_summary (r :: store)).selected = (get_summary store).selected
    ∧ (get_summary (r :: store)).rejected = (get_summary store).rejected := by
  have h4 : r.status ≠ "Pending" ∧ r.status ≠ "Interview Scheduled"
      ∧ r.status ≠ "Selected" ∧ r.status ≠ "Rejected" := by
    simp only [STATUS_OPTIONS, List.mem_cons, List.not_mem_nil, or_false] at h
    push_neg at h
    exact ⟨h.1, h.2.1, h.2.2.1, h.2.2.2⟩
  refine ⟨?_, ?_, rfl, ?_, ?_, ?_, ?_⟩
  · intro i
    simp [rowOf, status_fill_map, h4.1, h4.2.1, h4.2.2.1, h4.2.2.2]
  · rw [exportFile_rows_length]
    rfl
  · simp [get_summary, List.filter_cons, h4.1]
  · simp [get_summary, List.filter_cons, h4.2.1]
  · simp [get_summary, List.filter_cons, h4.2.2.1]
  · simp [get_summary, List.filter_cons, h4.2.2.2]

/-- C7 witness: a record with status "Ghosted" gets the default fill and adds
only to `total`, leaving the pending bucket unchanged. -/
theorem C7_witness :
    (rowOf 0 wRecC7).fill = "FFFFFF"
    ∧ (get_summary [wRecC7]).pending = (get_summary []).pending := by
  have h := C7_unknown_status [] wRecC7 (by decide)
  exact ⟨h.1 0, h.2.2.2.1⟩

/-! ## C8 -/

/-- C8: for an id matching no record, the edit form (GET), the edit submission
(POST) and the delete operation all produce the not-found outcome and leave
the store exactly as it was (no record removed or modified). -/
theorem C8_not_found (store : List JobApplication) (job_id : Nat) (f : FormInput)
    (h : ∀ r ∈ store, r.id ≠ job_id) :
    editGet store job_id = (Outcome.notFound, store)
    ∧ edit store job_id f = (Outcome.notFound, store)
    ∧ delete store job_id = (Outcome.notFound, store) := by
  have hfind : store.find? (fun r => r.id == job_id) = none := by
    rw [List.find?_eq_none]
    intro x hx
    simpa using h x hx
  refine ⟨?_, ?_, ?_⟩
  · unfold editGet
    rw [hfind]
  · unfold edit
    rw [hfind]
  · unfold delete
    rw [hfind]

/-- C8 witness: spec scenario E — id 9999 is unknown, so edit (both methods)
and delete answer not-found and the one-record store is untouched. -/
theorem C8_witness :
    editGet [wRecC8] 9999 = (Outcome.notFound, [wRecC8])
    ∧ edit [wRecC8] 9999 wFormC8 = (Outcome.notFound, [wRecC8])
    ∧ delete [wRecC8] 9999 = (Outcome.notFound, [wRecC8]) :=
  C8_not_found [wRecC8] 9999 wFormC8 (by decide)

/-! ## C9 -/

/-- C9: exporting is read-only (the store it leaves behind is the input
store), so exporting twice with no intervening writes yields identical row
content — indeed an identical workbook. -/
theorem C9_idempotent (store : List JobApplication) :
    (exportFile store).2 = store
    ∧ (exportFile ((exportFile store).2)).1.rows = (exportFile store).1.rows
    ∧ (exportFile ((exportFile store).2)).1 = (exportFile store).1 :=
  ⟨rfl, rfl, rfl⟩

/-! ## C10 -/

/-- C10: deleting an id present in a store with unique ids (the primary-key
invariant) succeeds and removes exactly that record: the result is one
shorter, no record with the deleted id remains, every remaining record was in
the store before with all its fields unchanged, and every other record
survives. -/
theorem C10_delete_frame (store : List JobApplication) (job_id : Nat)
    (job : JobApplication)
    (hfind : store.find? (fun r => r.id == job_id) = some job)
    (hnd : (store.map (fun r => r.id)).Nodup) :
    (delete store job_id).1 = Outcome.successRedirect
    ∧ ((delete store job_id).2).length + 1 = store.length
    ∧ (∀ r ∈ (delete store job_id).2, r.id ≠ job_id)
    ∧ (∀ r ∈ (delete store job_id).2, r ∈ store)
    ∧ (∀ r ∈ store, r.id ≠ job_id → r ∈ (delete store job_id).2) := by
  have hdel : delete store job_id
      = (Outcome.successRedirect, store.filter (fun r => !(r.id == job_id))) := by
    unfold delete
    rw [hfind]
  have hmem : job ∈ store := List.mem_of_find?_eq_some hfind
  have hid : job.id = job_id := by
    have := List.find?_some hfind
    simpa using this
  have hcount : store.countP (fun r => r.id == job_id) = 1 := by
    have h1 : (store.map (fun r => r.id)).count job_id = 1 :=
      List.count_eq_one_of_mem hnd (List.mem_map.mpr ⟨job, hmem, hid⟩)
    rw [List.count_eq_countP, List.countP_map] at h1
    simpa using h1
  have hlen : (store.filter (fun r => !(r.id == job_id))).length + 1 = store.length := by
    have hperm := List.filter_append_perm (fun r : JobApplication => r.id == job_id) store
    have := hperm.length_eq
    rw [List.length_append, ← List.countP_eq_length_filter, hcount] at this
    omega
  rw [hdel]
  refine ⟨rfl, hlen, ?_, ?_, ?_⟩
  · intro r hr
    have := (List.mem_filter.mp hr).2
    simpa using this
  · intro r hr
    exact (List.mem_filter.mp hr).1
  · intro r hr hne
    exact List.mem_filter.mpr ⟨hr, by simpa using hne⟩

/-- C10 witness: deleting id 1 from a two-record store keeps the other record
intact and drops the length by one. -/
theorem C10_witness :
    wRecC10b ∈ (delete [wRecC10a, wRecC10b] 1).2
    ∧ ((delete [wRecC10a, wRecC10b] 1).2).length + 1 = 2 := by
  have h := C10_delete_frame [wRecC10a, wRecC10b] 1 wRecC10a (by decide) (by decide)
  exact ⟨h.2.2.2.2 wRecC10b (by decide) (by decide), h.2.1⟩

end JobTracker
